import Mathlib

/-!
Formal model of the Survivalcraft chunks-file decoder
(repository `scworldedit`, sources `src/chunks/common.py`,
`src/chunks/decode.py`, `src/chunks.py`).

Python integers are modelled as `Int` (arbitrary precision, like Python's
`int`); byte strings are modelled as `List Nat` with every element a byte
value below 256; fallible operations return `Except DecodeError`.
-/

namespace SC

/-- The Python exception classes that the decoder can raise.
`valueError` is Python's `ValueError` (raised by `extract_bits` in
`src/chunks/common.py` for a negative bit width — the `TypeError` coming
from shifting the float `2**n_bits - 1` is caught and re-raised as
`ValueError` — and for a negative shift count); `typeError` is an uncaught
Python `TypeError` (the legacy `src/chunks.py` copy of `extract_bits` has
no `try`/`except`, so the float-shift `TypeError` propagates unchanged);
`structError` is `struct.error` (buffer of the wrong size passed to
`Struct.unpack` / `Struct.iter_unpack`); `overflowError` is
`OverflowError` (a value outside the signed 32-bit C `int` range stored
into `array('i', ...)` by `read_directory`); `magicMismatch` is the
`ValueError` raised by `ChunksDecoder._assert_magic`, carrying the actual
and the expected magic number. -/
inductive DecodeError : Type
  | valueError : DecodeError
  | typeError : DecodeError
  | structError : DecodeError
  | overflowError : DecodeError
  | magicMismatch (actual expected : Nat) : DecodeError
deriving DecidableEq, Repr

/-- `Block = namedtuple('Block', 'x y z type light state')`
(`src/chunks/common.py`).  All fields are non-negative in every record the
decoder produces, so they are modelled as `Nat`. -/
structure Block : Type where
  x : Nat
  y : Nat
  z : Nat
  type : Nat
  light : Nat
  state : Nat
deriving DecidableEq, Repr

/-- `SurfacePoint = namedtuple('SurfacePoint', 'x y elevation temperature
humidity')` (`src/chunks/common.py`). -/
structure SurfacePoint : Type where
  x : Nat
  y : Nat
  elevation : Nat
  temperature : Nat
  humidity : Nat
deriving DecidableEq, Repr

/-- `CHUNK_WIDTH` (x direction), `ChunksDecoder` class constant. -/
def CHUNK_WIDTH : Nat := 16

/-- `CHUNK_HEIGHT` (y direction), `ChunksDecoder` class constant. -/
def CHUNK_HEIGHT : Nat := 16

/-- `CHUNK_DEPTH` (z direction), `ChunksDecoder` class constant. -/
def CHUNK_DEPTH : Nat := 128

/-- `extract_bits(n, n_bits, offset_from_lsb)` from `src/chunks/common.py`:

    try:
        bitmask = (2**n_bits - 1) << offset_from_lsb
    except TypeError as err:
        raise ValueError(err)
    return (n & bitmask) >> offset_from_lsb

For `n_bits < 0`, Python's `2**n_bits` is a `float`, and shifting a float
raises `TypeError`, which this version catches and re-raises as
`ValueError`.  For `offset_from_lsb < 0` the shift raises
`ValueError('negative shift count')` directly.  Otherwise
`(2**n_bits - 1) << offset_from_lsb = (2^n_bits - 1) * 2^offset_from_lsb`,
Python's `&` on arbitrary integers is two's-complement bitwise and
(`Int.land`), and `>>` by a non-negative count is floor division by a
power of two (`Int.fdiv`). -/
def extract_bits (n n_bits offset_from_lsb : Int) : Except DecodeError Int :=
  if n_bits < 0 then Except.error DecodeError.valueError
  else if offset_from_lsb < 0 then Except.error DecodeError.valueError
  else
    let bitmask : Nat := (2 ^ n_bits.toNat - 1) <<< offset_from_lsb.toNat
    Except.ok ((Int.land n bitmask).fdiv ((2 ^ offset_from_lsb.toNat : Nat) : Int))

/-- `extract_bits(n, n_bits, offset_from_lsb)` from the legacy monolithic
`src/chunks.py`:

    bitmask = (2**n_bits - 1) << offset_from_lsb
    return (n & bitmask) >> offset_from_lsb

Identical to the `src/chunks/common.py` version except that there is no
`try`/`except`, so a negative `n_bits` makes the float shift raise an
uncaught `TypeError` (the repository's own test
`test_chunks.py::BitExtractorTest.test_extract_negative` expects
`ValueError` here and therefore fails against this version). -/
def chunks_py_extract_bits (n n_bits offset_from_lsb : Int) :
    Except DecodeError Int :=
  if n_bits < 0 then Except.error DecodeError.typeError
  else if offset_from_lsb < 0 then Except.error DecodeError.valueError
  else
    let bitmask : Nat := (2 ^ n_bits.toNat - 1) <<< offset_from_lsb.toNat
    Except.ok ((Int.land n bitmask).fdiv ((2 ^ offset_from_lsb.toNat : Nat) : Int))

/-- The pure bit-field extraction on natural numbers,
`(n & ((2^w - 1) << off)) >> off`.  Every call the two decoder classes
make to `extract_bits` has non-negative arguments, where `extract_bits`
reduces to this function (lemma `extract_bits_natCast` below). -/
def extractBits (n w off : Nat) : Nat :=
  (n &&& ((2 ^ w - 1) <<< off)) >>> off

/-- Value of a little-endian byte string (each element is a byte
below 256), as produced by `struct.unpack` for the unsigned fields of the
`'<QII'` header and the `'<I'` 1.29 block record. -/
def leNat : List Nat → Nat
  | [] => 0
  | b :: bs => b + 256 * leNat bs

/-- Little-endian byte string of length `k` encoding `n % 256^k`
(used only to build concrete test buffers). -/
def toLE : Nat → Nat → List Nat
  | 0, _ => []
  | k + 1, n => n % 256 :: toLE k (n / 256)

/-- Signed little-endian 32-bit value of a 4-byte string, as produced by
`struct.unpack` for the `'i'` field of the `'<8xi'` directory entry. -/
def int32OfBytes (bs : List Nat) : Int :=
  if leNat bs < 2 ^ 31 then (leNat bs : Int) else (leNat bs : Int) - 2 ^ 32

/-- Decode one 12-byte `'<8xi'` directory entry: 8 pad bytes are skipped
and bytes 8..11 hold a signed little-endian 32-bit value. -/
def parse_direntry (g : List Nat) : Int :=
  int32OfBytes ((g.drop 8).take 4)

/-- Encode a signed 32-bit value as a 12-byte `'<8xi'` directory entry
(8 zero pad bytes followed by the little-endian two's-complement bytes);
inverse of `parse_direntry` for values in the signed 32-bit range.  Used
to build concrete directory buffers. -/
def encode_direntry (v : Int) : List Nat :=
  [0, 0, 0, 0, 0, 0, 0, 0] ++ toLE 4 (v % (2 ^ 32 : Int)).toNat

/-- Split a byte string into consecutive groups of `k` bytes, as
`struct.Struct.iter_unpack` does (the `j`-th group is bytes
`j*k .. j*k + k - 1`; a trailing remainder shorter than `k` is never
present because `iter_unpack` first checks divisibility). -/
def groupN (k : Nat) (l : List Nat) : List (List Nat) :=
  (List.range (l.length / k)).map (fun j => (l.drop (j * k)).take k)

/-- `struct.Struct.iter_unpack`: requires the buffer length to be a
multiple of the item size (otherwise `struct.error`), then yields the
consecutive `item_size`-byte groups. -/
def iter_unpack (item_size : Nat) (buf : List Nat) :
    Except DecodeError (List (List Nat)) :=
  if buf.length % item_size = 0 then Except.ok (groupN item_size buf)
  else Except.error DecodeError.structError

/-- `array('i', offsets)`: the offsets are stored as C signed `int`s
(32-bit on the platforms CPython supports); a value outside
`[-2^31, 2^31)` raises `OverflowError`. -/
def array_int (offsets : List Int) : Except DecodeError (List Int) :=
  if offsets.all (fun o => -2 ^ 31 ≤ o ∧ o < 2 ^ 31) then Except.ok offsets
  else Except.error DecodeError.overflowError

/-- Error propagation: a raised exception propagates past the rest of
the computation (Python's exception flow, written as an explicit bind on
`Except`). -/
def exceptBind {α β : Type} (x : Except DecodeError α)
    (g : α → Except DecodeError β) : Except DecodeError β :=
  match x with
  | Except.error e => Except.error e
  | Except.ok a => g a

/-- Unpack the 16-byte `'<QII'` chunk header into
`(magic, chunk_x, chunk_y)`: an unsigned 8-byte and two unsigned 4-byte
little-endian integers. -/
def unpack_header (bytes : List Nat) : Nat × Nat × Nat :=
  (leNat (bytes.take 8), leNat ((bytes.drop 8).take 4),
    leNat ((bytes.drop 12).take 4))

/-- Python's `enumerate` over the unpacked record groups: apply
`g index group` to each group, with indices starting at `start`. -/
def enumMap {α : Type} (g : Nat → List Nat → α) :
    Nat → List (List Nat) → List α
  | _, [] => []
  | i, d :: ds => g i d :: enumMap g (i + 1) ds

/-- A format descriptor: the per-version constants and parse functions of
a `ChunksDecoder` subclass.  `header_size`, `block_size`,
`surface_point_size` and `direntry_size` are the byte sizes of the
version's `_chunk_header_struct`, `_block_struct`,
`_surface_point_struct` and `_direntry_struct`. -/
structure ChunksFmt : Type where
  MAGIC : Nat
  INVALID_INDEX_VALUE : Int
  header_size : Nat
  block_size : Nat
  surface_point_size : Nat
  direntry_size : Nat
  parse_block_data : Nat → Nat → Nat → List Nat → Block
  parse_surface_data : Nat → Nat → Nat → List Nat → SurfacePoint
  offset_from_index : Int → Int

/-- `ChunksDecoder.blocks_size`:
`CHUNK_WIDTH * CHUNK_HEIGHT * CHUNK_DEPTH * self._block_struct.size`. -/
def blocks_size (f : ChunksFmt) : Nat :=
  CHUNK_WIDTH * CHUNK_HEIGHT * CHUNK_DEPTH * f.block_size

/-- `ChunksDecoder.surface_size`:
`CHUNK_WIDTH * CHUNK_HEIGHT * self._surface_point_struct.size`. -/
def surface_size (f : ChunksFmt) : Nat :=
  CHUNK_WIDTH * CHUNK_HEIGHT * f.surface_point_size

/-- `ChunksDecoder.directory_size`:
`self._direntry_struct.size * (64*1024 + 1)`. -/
def directory_size (f : ChunksFmt) : Nat :=
  f.direntry_size * (64 * 1024 + 1)

/-- `ChunksDecoder.chunk_size`:
`self._chunk_header_struct.size + self.blocks_size + self.surface_size`. -/
def chunk_size (f : ChunksFmt) : Nat :=
  f.header_size + blocks_size f + surface_size f

/-- `ChunksDecoder.parse_block` (the base-class method both decoder
subclasses delegate to):

    w, h, d = self.CHUNK_WIDTH, self.CHUNK_HEIGHT, self.CHUNK_DEPTH
    return Block(i//h//d + chunk_x*w, (i//d) % w + chunk_y*h, i % d, *data)

where `data = (btype, blight, bstate)` are the already-decoded field
values the subclass passes up. -/
def parse_block (i chunk_x chunk_y btype blight bstate : Nat) : Block :=
  { x := i / CHUNK_HEIGHT / CHUNK_DEPTH + chunk_x * CHUNK_WIDTH
    y := (i / CHUNK_DEPTH) % CHUNK_WIDTH + chunk_y * CHUNK_HEIGHT
    z := i % CHUNK_DEPTH
    type := btype
    light := blight
    state := bstate }

/-- `ChunksDecoder.parse_surface_point` (the base-class method both
decoder subclasses delegate to):

    w, h = self.CHUNK_WIDTH, self.CHUNK_HEIGHT
    return SurfacePoint(i//w + chunk_x*w, (i % w) + chunk_y*h, *data)
-/
def parse_surface_point (i chunk_x chunk_y elevation temperature humidity :
    Nat) : SurfacePoint :=
  { x := i / CHUNK_WIDTH + chunk_x * CHUNK_WIDTH
    y := i % CHUNK_WIDTH + chunk_y * CHUNK_HEIGHT
    elevation := elevation
    temperature := temperature
    humidity := humidity }

/-- `Chunks128Decoder.parse_block` applied to one unpacked `'<BB'` record
`(block_type, block_data)`: `type = block_type`,
`light = extract_bits(block_data, 4, 0)`,
`state = extract_bits(block_data, 4, 4)`. -/
def chunks128_parse_block (i chunk_x chunk_y : Nat) (data : List Nat) :
    Block :=
  parse_block i chunk_x chunk_y (data.getD 0 0)
    (extractBits (data.getD 1 0) 4 0) (extractBits (data.getD 1 0) 4 4)

/-- `Chunks129Decoder.parse_block` applied to the 32-bit word `blk`
unpacked from a `'<I'` record: `type = extract_bits(blk, 10, 0)`,
`light = extract_bits(blk, 4, 10)`, `state = extract_bits(blk, 14..)`,
precisely `extract_bits(blk, 18, 14)`. -/
def chunks129_parse_block_word (i chunk_x chunk_y blk : Nat) : Block :=
  parse_block i chunk_x chunk_y (extractBits blk 10 0)
    (extractBits blk 4 10) (extractBits blk 18 14)

/-- `Chunks129Decoder.parse_block` on the raw 4 little-endian bytes of
the `'<I'` record. -/
def chunks129_parse_block (i chunk_x chunk_y : Nat) (data : List Nat) :
    Block :=
  chunks129_parse_block_word i chunk_x chunk_y (leNat data)

/-- `parse_surface_point` of both decoder subclasses (their bodies are
identical) applied to one unpacked `'<BB2x'` record
`(elevation, climate)`: `temperature = extract_bits(climate, 4, 0)`,
`humidity = extract_bits(climate, 4, 4)`. -/
def chunks_parse_surface (i chunk_x chunk_y : Nat) (data : List Nat) :
    SurfacePoint :=
  parse_surface_point i chunk_x chunk_y (data.getD 0 0)
    (extractBits (data.getD 1 0) 4 0) (extractBits (data.getD 1 0) 4 4)

/-- `Chunks129Decoder.directory_size` spelled out:
the `'<8xi'` direntry struct is 12 bytes, so `12 * (64*1024 + 1)`. -/
def chunks129_directory_size : Nat := 12 * (64 * 1024 + 1)

/-- `Chunks129Decoder.chunk_size` spelled out: 16-byte `'<QII'` header,
4-byte `'<I'` block records, 4-byte `'<BB2x'` surface records. -/
def chunks129_chunk_size : Nat :=
  16 + CHUNK_WIDTH * CHUNK_HEIGHT * CHUNK_DEPTH * 4 +
    CHUNK_WIDTH * CHUNK_HEIGHT * 4

/-- `Chunks129Decoder.offset_from_index`:
`self.directory_size + index * self.chunk_size`. -/
def chunks129_offset_from_index (index : Int) : Int :=
  chunks129_directory_size + index * chunks129_chunk_size

/-- `Chunks128Decoder` (Survivalcraft 1.4–1.28, `Chunks.dat`):
`MAGIC = 0xFFFFFFFFDEADBEEF`, `INVALID_INDEX_VALUE = 0`, structs
`'<QII'`, `'<BB'`, `'<BB2x'`, `'<8xi'` (sizes 16, 2, 4, 12), and
`offset_from_index` is the identity (the directory stores offsets
directly). -/
def Chunks128Decoder : ChunksFmt :=
  { MAGIC := 0xFFFFFFFFDEADBEEF
    INVALID_INDEX_VALUE := 0
    header_size := 16
    block_size := 2
    surface_point_size := 4
    direntry_size := 12
    parse_block_data := chunks128_parse_block
    parse_surface_data := chunks_parse_surface
    offset_from_index := fun offset => offset }

/-- `Chunks129Decoder` (Survivalcraft 1.29, `Chunks32.dat`):
`MAGIC = 0xFFFFFFFEDEADBEEF`, `INVALID_INDEX_VALUE = -1`, structs
`'<QII'`, `'<I'`, `'<BB2x'`, `'<8xi'` (sizes 16, 4, 4, 12), and
`offset_from_index(index) = directory_size + index * chunk_size`. -/
def Chunks129Decoder : ChunksFmt :=
  { MAGIC := 0xFFFFFFFEDEADBEEF
    INVALID_INDEX_VALUE := -1
    header_size := 16
    block_size := 4
    surface_point_size := 4
    direntry_size := 12
    parse_block_data := chunks129_parse_block
    parse_surface_data := chunks_parse_surface
    offset_from_index := chunks129_offset_from_index }

/-- `ChunksDecoder.read_directory`: read `directory_size` bytes from the
start of the file (`read` returns fewer if the file is shorter, with no
length check), iterate `'<8xi'` entries over that buffer, drop sentinel
entries, map `offset_from_index` over the remaining indices in slot
order, and collect into `array('i', ...)`. -/
def read_directory (f : ChunksFmt) (file : List Nat) :
    Except DecodeError (List Int) :=
  exceptBind (iter_unpack f.direntry_size (file.take (directory_size f)))
    (fun groups =>
      array_int (((groups.map parse_direntry).filter
        (fun index => index ≠ f.INVALID_INDEX_VALUE)).map f.offset_from_index))

/-- One directory offset's worth of `ChunksDecoder._read_section`: seek
to `offset` (negative seek is an error), `unpack` the 16-byte header
(fewer available bytes is a `struct.error`), check the magic
(`_assert_magic` raises `ValueError` on mismatch, modelled as
`magicMismatch`), seek `skip_size` further, read up to `read_size` bytes
and `iter_unpack` the records, passing each with its index and the
header's grid coordinates to `parse`. -/
def read_chunk {α : Type} (f : ChunksFmt)
    (parse : Nat → Nat → Nat → List Nat → α)
    (item_size skip_size read_size : Nat) (file : List Nat) (offset : Int) :
    Except DecodeError (List α) :=
  if offset < 0 then Except.error DecodeError.valueError
  else
    let rest := file.drop offset.toNat
    if rest.length < f.header_size then Except.error DecodeError.structError
    else
      let hdr := unpack_header (rest.take f.header_size)
      if hdr.1 ≠ f.MAGIC then
        Except.error (DecodeError.magicMismatch hdr.1 f.MAGIC)
      else
        exceptBind (iter_unpack item_size
            ((rest.drop (f.header_size + skip_size)).take read_size))
          (fun groups =>
            Except.ok (enumMap (fun i g => parse i hdr.2.1 hdr.2.2 g) 0 groups))

/-- `ChunksDecoder._read_section` over a known directory: process the
offsets in slot order; the records of each chunk are yielded lazily, so
when a chunk fails, the records of the earlier chunks have already been
emitted (first component) and the error surfaces afterwards (second
component), with no record from the failing or any later chunk. -/
def read_section {α : Type} (f : ChunksFmt)
    (parse : Nat → Nat → Nat → List Nat → α)
    (item_size skip_size read_size : Nat) (file : List Nat) :
    List Int → List α × Option DecodeError
  | [] => ([], none)
  | offset :: restOffsets =>
    match read_chunk f parse item_size skip_size read_size file offset with
    | Except.error e => ([], some e)
    | Except.ok recs =>
        let r := read_section f parse item_size skip_size read_size file
          restOffsets
        (recs ++ r.1, r.2)

/-- `ChunksDecoder.read_blocks` over a known directory:
`_read_section(chunksf, self._block_struct, self.parse_block, 0,
self.blocks_size, directory)`. -/
def read_blocks (f : ChunksFmt) (file : List Nat) (dir : List Int) :
    List Block × Option DecodeError :=
  read_section f f.parse_block_data f.block_size 0 (blocks_size f) file dir

/-- `ChunksDecoder.read_surface` over a known directory:
`_read_section(chunksf, self._surface_point_struct,
self.parse_surface_point, self.blocks_size, self.surface_size,
directory)`. -/
def read_surface (f : ChunksFmt) (file : List Nat) (dir : List Int) :
    List SurfacePoint × Option DecodeError :=
  read_section f f.parse_surface_data f.surface_point_size (blocks_size f)
    (surface_size f) file dir

/-- The surface-relative plane filter's elevation mapping from `main` in
`src/chunks.py`:

    offsets = {(x, y): elev + rel_offset
               for x, y, elev, *_ in decoder.read_surface(...)}

modelled as the association list the dict comprehension runs over; the
filter then looks up `offsets[(b.x, b.y)]`, which raises `KeyError` iff
the key is absent. -/
def surface_offsets (pts : List SurfacePoint) (rel_offset : Int) :
    List ((Nat × Nat) × Int) :=
  pts.map (fun p => ((p.x, p.y), (p.elevation : Int) + rel_offset))

/-- A directory offset points at a complete, well-formed chunk of format
`f`: it is non-negative, the file holds at least `chunk_size` bytes from
it, and the header's magic matches the format's. -/
def chunk_wf (f : ChunksFmt) (file : List Nat) (offset : Int) : Prop :=
  0 ≤ offset ∧ chunk_size f ≤ (file.drop offset.toNat).length ∧
    (unpack_header ((file.drop offset.toNat).take f.header_size)).1 = f.MAGIC

/-! ## General lemmas about the model -/

/-- Shifting a masked value back right moves the mask past the shift. -/
lemma shift_and_shift (a m o : Nat) :
    (a &&& (m <<< o)) >>> o = (a >>> o) &&& m := by
  apply Nat.eq_of_testBit_eq
  intro i
  simp [Nat.testBit_shiftRight, Nat.testBit_and, Nat.testBit_shiftLeft,
    Nat.le_add_right, Nat.add_sub_cancel_left]

/-- `extractBits` masks the bits above `w` of the value shifted right. -/
lemma extractBits_and_shift (n w off : Nat) :
    extractBits n w off = (n >>> off) &&& (2 ^ w - 1) := by
  rw [extractBits, shift_and_shift]

/-- `extractBits` in division form: `n / 2^off % 2^w`. -/
lemma extractBits_div_mod (n w off : Nat) :
    extractBits n w off = n / 2 ^ off % 2 ^ w := by
  rw [extractBits_and_shift, Nat.and_pow_two_sub_one_eq_mod,
    Nat.shiftRight_eq_div_pow]

/-- `Int.land` on two embedded naturals is `Nat.land`. -/
lemma land_natCast (a b : Nat) :
    Int.land (a : Int) (b : Int) = ((a &&& b : Nat) : Int) := rfl

/-- `Int.fdiv` on two embedded naturals is `Nat.div`. -/
lemma fdiv_natCast (a b : Nat) :
    (a : Int).fdiv (b : Int) = ((a / b : Nat) : Int) :=
  (Int.ofNat_fdiv a b).symm

/-- On non-negative arguments, the Python `extract_bits` of
`src/chunks/common.py` succeeds and computes the pure `extractBits`. -/
lemma extract_bits_natCast (n w off : Nat) :
    extract_bits (n : Int) (w : Int) (off : Int)
      = Except.ok ((extractBits n w off : Nat) : Int) := by
  unfold extract_bits extractBits
  rw [if_neg (by simp), if_neg (by simp)]
  simp only [Int.toNat_natCast]
  rw [land_natCast, fdiv_natCast, Nat.shiftRight_eq_div_pow]

/-- Bitwise or of a shifted value with a value below the shift amount is
addition (the bit ranges are disjoint). -/
lemma or_shiftLeft_add (a b k : Nat) (hb : b < 2 ^ k) :
    (a <<< k) ||| b = a * 2 ^ k + b := by
  apply Nat.eq_of_testBit_eq
  intro i
  rw [Nat.mul_comm a (2 ^ k), Nat.testBit_mul_pow_two_add a hb i]
  simp only [Nat.testBit_or, Nat.testBit_shiftLeft]
  by_cases h : i < k
  · simp [h, Nat.not_le.mpr h]
  · have hk : k ≤ i := Nat.not_lt.mp h
    have hbf : b.testBit i = false :=
      Nat.testBit_lt_two_pow
        (lt_of_lt_of_le hb (Nat.pow_le_pow_right (by norm_num) hk))
    simp [h, hk, hbf]

/-- `toLE k` always produces `k` bytes. -/
lemma length_toLE (k n : Nat) : (toLE k n).length = k := by
  induction k generalizing n with
  | zero => rfl
  | succ k ih => simp [toLE, ih]

/-- Decoding the `k` little-endian bytes of `n` recovers `n % 256^k`. -/
lemma leNat_toLE (k n : Nat) : leNat (toLE k n) = n % 256 ^ k := by
  induction k generalizing n with
  | zero => simp [toLE, leNat, Nat.mod_one]
  | succ k ih =>
    have : (256 : Nat) ^ (k + 1) = 256 * 256 ^ k := by ring
    rw [toLE, leNat, ih, this, Nat.mod_mul]

/-- A directory entry encodes to exactly 12 bytes. -/
lemma encode_direntry_length (v : Int) : (encode_direntry v).length = 12 := by
  simp [encode_direntry, length_toLE]

/-- Round trip: decoding an encoded directory entry in the signed 32-bit
range recovers the value. -/
lemma parse_direntry_encode (v : Int) (h1 : -2 ^ 31 ≤ v) (h2 : v < 2 ^ 31) :
    parse_direntry (encode_direntry v) = v := by
  unfold parse_direntry encode_direntry
  have hnn : 0 ≤ v % (2 ^ 32 : Int) := Int.emod_nonneg v (by norm_num)
  have hmi : (((v % (2 ^ 32 : Int)).toNat : Nat) : Int) = v % 4294967296 := by
    rw [Int.toNat_of_nonneg hnn]
    norm_num
  have hdrop : (([0, 0, 0, 0, 0, 0, 0, 0] : List Nat) ++
      toLE 4 (v % (2 ^ 32 : Int)).toNat).drop 8
      = toLE 4 (v % (2 ^ 32 : Int)).toNat := rfl
  rw [hdrop]
  have htake : (toLE 4 (v % (2 ^ 32 : Int)).toNat).take 4
      = toLE 4 (v % (2 ^ 32 : Int)).toNat := by
    apply List.take_of_length_le
    rw [length_toLE]
  rw [htake]
  unfold int32OfBytes
  rw [leNat_toLE]
  have hmlt : (v % (2 ^ 32 : Int)).toNat < 2 ^ 32 := by omega
  have hmod : (v % (2 ^ 32 : Int)).toNat % 256 ^ 4
      = (v % (2 ^ 32 : Int)).toNat := Nat.mod_eq_of_lt (by norm_num at hmlt ⊢; omega)
  rw [hmod]
  norm_num at h1 h2 hmlt ⊢
  split
  · omega
  · omega

/-- Splitting off a full leading group. -/
lemma groupN_append (k : Nat) (hk : 0 < k) (xs rest : List Nat)
    (hxs : xs.length = k) :
    groupN k (xs ++ rest) = xs :: groupN k rest := by
  unfold groupN
  have hlen : (xs ++ rest).length = k + rest.length := by simp [hxs]
  rw [hlen]
  have hdiv : (k + rest.length) / k = rest.length / k + 1 := by
    rw [Nat.add_comm k rest.length, Nat.add_div_right _ hk]
  rw [hdiv, List.range_succ_eq_map]
  simp only [List.map_cons, List.map_map]
  congr 1
  · simp only [Nat.zero_mul, List.drop_zero]
    rw [← hxs, List.take_left]
  · apply List.map_congr_left
    intro j _
    simp only [Function.comp_apply]
    have hjk : Nat.succ j * k = k + j * k := by
      rw [Nat.succ_mul]
      omega
    rw [hjk, ← List.drop_drop, ← hxs, List.drop_left, hxs]

/-- Grouping the concatenation of equal-length `k`-byte strings undoes
the concatenation. -/
lemma groupN_flatten (k : Nat) (hk : 0 < k) (L : List (List Nat))
    (hL : ∀ xs ∈ L, xs.length = k) :
    groupN k L.flatten = L := by
  induction L with
  | nil => simp [groupN]
  | cons xs L ih =>
    rw [List.flatten_cons, groupN_append k hk xs L.flatten (hL xs (by simp))]
    rw [ih (fun y hy => hL y (by simp [hy]))]

/-- Total length of a concatenation of encoded directory entries. -/
lemma encode_flatten_length (es : List Int) :
    ((es.map encode_direntry).flatten).length = 12 * es.length := by
  induction es with
  | nil => simp
  | cons e es ih =>
    simp only [List.map_cons, List.flatten_cons, List.length_append,
      List.length_cons, ih, encode_direntry_length]
    ring

/-- Decoding a list of encoded in-range directory entries recovers the
entries. -/
lemma map_parse_encode (es : List Int)
    (hr : ∀ e ∈ es, -2 ^ 31 ≤ e ∧ e < 2 ^ 31) :
    (es.map encode_direntry).map parse_direntry = es := by
  rw [List.map_map]
  conv_rhs => rw [← List.map_id es]
  apply List.map_congr_left
  intro e he
  simp only [Function.comp_apply, List.map_id, id]
  exact parse_direntry_encode e (hr e he).1 (hr e he).2

/-- A failing chunk stops the section read with no records from it. -/
lemma read_section_cons_error {α : Type} (f : ChunksFmt)
    (parse : Nat → Nat → Nat → List Nat → α)
    (item_size skip_size read_size : Nat) (file : List Nat)
    (offset : Int) (restOffsets : List Int) (e : DecodeError)
    (h : read_chunk f parse item_size skip_size read_size file offset
      = Except.error e) :
    read_section f parse item_size skip_size read_size file
      (offset :: restOffsets) = ([], some e) := by
  unfold read_section
  rw [h]

/-- A succeeding chunk contributes its records ahead of the rest. -/
lemma read_section_cons_ok {α : Type} (f : ChunksFmt)
    (parse : Nat → Nat → Nat → List Nat → α)
    (item_size skip_size read_size : Nat) (file : List Nat)
    (offset : Int) (restOffsets : List Int) (recs : List α)
    (h : read_chunk f parse item_size skip_size read_size file offset
      = Except.ok recs) :
    read_section f parse item_size skip_size read_size file
        (offset :: restOffsets)
      = (recs ++ (read_section f parse item_size skip_size read_size file
            restOffsets).1,
        (read_section f parse item_size skip_size read_size file
          restOffsets).2) := by
  simp only [read_section, h]

/-! ## Claims -/

/-- C1: for every non-negative width, offset and value,
`extract_bits(value, width, offset)` returns
`(value >> offset) & ((1 << width) - 1)`; in particular it returns 0 on a
zero value, on a zero width, and whenever `value < 2^offset` (the offset
is at or beyond the highest set bit of the value). -/
theorem extract_bits_c1 (value width offset : Int)
    (hv : 0 ≤ value) (hw : 0 ≤ width) (ho : 0 ≤ offset) :
    extract_bits value width offset =
      Except.ok
        (((value.toNat >>> offset.toNat) &&& ((1 <<< width.toNat) - 1) :
          Nat) : Int) ∧
    extract_bits 0 width offset = Except.ok 0 ∧
    (width = 0 → extract_bits value width offset = Except.ok 0) ∧
    (value < ((2 ^ offset.toNat : Nat) : Int) →
      extract_bits value width offset = Except.ok 0) := by
  have hv' : ((value.toNat : Nat) : Int) = value := Int.toNat_of_nonneg hv
  have hw' : ((width.toNat : Nat) : Int) = width := Int.toNat_of_nonneg hw
  have ho' : ((offset.toNat : Nat) : Int) = offset := Int.toNat_of_nonneg ho
  have main : extract_bits value width offset
      = Except.ok ((extractBits value.toNat width.toNat offset.toNat : Nat) :
          Int) := by
    rw [← hv', ← hw', ← ho'] at *
    simp only [Int.toNat_natCast]
    exact extract_bits_natCast _ _ _
  refine ⟨?_, ?_, ?_, ?_⟩
  · rw [main, extractBits_and_shift]
    have : (1 <<< width.toNat) - 1 = 2 ^ width.toNat - 1 := by
      rw [Nat.shiftLeft_eq, Nat.one_mul]
    rw [this]
  · have z : extract_bits 0 width offset
        = Except.ok ((extractBits 0 width.toNat offset.toNat : Nat) : Int) := by
      rw [← hw', ← ho']
      simp only [Int.toNat_natCast]
      exact extract_bits_natCast 0 _ _
    rw [z, extractBits_and_shift]
    simp
  · intro h0
    rw [main, extractBits_and_shift, h0]
    simp
  · intro hlt
    have hlt' : value.toNat < 2 ^ offset.toNat := by
      omega
    rw [main, extractBits_and_shift, Nat.shiftRight_eq_div_pow,
      Nat.div_eq_of_lt hlt']
    simp

/-- Witness for C1 at the docstring example `extract_bits(0b1101011001111010,
5, 7) = 0b1100` together with the three special cases. -/
theorem extract_bits_c1_witness :
    extract_bits 54906 5 7 = Except.ok 12 ∧
    extract_bits 0 5 7 = Except.ok 0 ∧
    extract_bits 54906 5 16 = Except.ok 0 := by
  refine ⟨?_, ?_, ?_⟩
  · exact (extract_bits_c1 54906 5 7 (by decide) (by decide)
      (by decide)).1.trans rfl
  · exact (extract_bits_c1 54906 5 7 (by decide) (by decide)
      (by decide)).2.1
  · exact (extract_bits_c1 54906 5 16 (by decide) (by decide)
      (by decide)).2.2.2 (by decide)

/-- C8: a negative width always fails.  In `src/chunks/common.py` the
failure is the claimed `ValueError` (the `TypeError` from shifting the
float `2**n_bits - 1` is caught and re-raised as `ValueError`); the
legacy copy in `src/chunks.py` instead lets the `TypeError` escape, at
odds with the claim and with the repository's own test
`test_chunks.py::BitExtractorTest.test_extract_negative`, which asserts
`ValueError` against exactly this code path. -/
theorem extract_bits_c8 :
    (∀ value offset width : Int, width < 0 →
      extract_bits value width offset = Except.error DecodeError.valueError) ∧
    chunks_py_extract_bits 0 (-1) 0 = Except.error DecodeError.typeError := by
  constructor
  · intro v o w hw
    unfold extract_bits
    rw [if_pos hw]
  · rfl

/-- Witness for C8 on the `src/chunks/common.py` version at a concrete
negative width. -/
theorem extract_bits_c8_witness :
    extract_bits 123 (-5) 4 = Except.error DecodeError.valueError :=
  extract_bits_c8.1 123 4 (-5) (by decide)

/-- C2: a block record at linear index `i < 32768` in the chunk at grid
`(chunk_x, chunk_y)` decodes to world coordinates
`x = i // (16*128) + chunk_x*16`, `y = (i // 128) % 16 + chunk_y*16`,
`z = i % 128`; at chunk `(2,3)`, index 0 maps to `(32,48,0)` and index
32767 to `(47,63,127)`. -/
theorem parse_block_c2 :
    (∀ i chunk_x chunk_y btype blight bstate : Nat, i < 32768 →
      parse_block i chunk_x chunk_y btype blight bstate =
        { x := i / (16 * 128) + chunk_x * 16
          y := (i / 128) % 16 + chunk_y * 16
          z := i % 128
          type := btype, light := blight, state := bstate }) ∧
    (∀ t l s : Nat, parse_block 0 2 3 t l s =
      { x := 32, y := 48, z := 0, type := t, light := l, state := s }) ∧
    (∀ t l s : Nat, parse_block 32767 2 3 t l s =
      { x := 47, y := 63, z := 127, type := t, light := l, state := s }) := by
  refine ⟨?_, ?_, ?_⟩
  · intro i cx cy t l s _
    simp [parse_block, CHUNK_WIDTH, CHUNK_HEIGHT, CHUNK_DEPTH,
      Nat.div_div_eq_div_mul]
  · intro t l s
    rfl
  · intro t l s
    rfl

/-- Witness for C2 at index 5000 of chunk `(1,2)`. -/
theorem parse_block_c2_witness :
    parse_block 5000 1 2 9 3 1 =
      { x := 18, y := 39, z := 8, type := 9, light := 3, state := 1 } :=
  (parse_block_c2.1 5000 1 2 9 3 1 (by decide)).trans (by decide)

/-- C3: for `type < 2^10`, `light < 2^4` and `state < 2^18`, decoding
the packed word `(state << 14) | (light << 10) | type` with the 1.29
block parser recovers exactly those three field values (bit layout
`type:10@0`, `light:4@10`, `state:18@14`). -/
theorem chunks129_c3 (btype blight bstate : Nat)
    (ht : btype < 2 ^ 10) (hl : blight < 2 ^ 4) (hs : bstate < 2 ^ 18) :
    ∀ i chunk_x chunk_y : Nat,
      chunks129_parse_block_word i chunk_x chunk_y
        ((bstate <<< 14) ||| (blight <<< 10) ||| btype) =
      parse_block i chunk_x chunk_y btype blight bstate := by
  intro i cx cy
  have h1 : (bstate <<< 14) ||| (blight <<< 10)
      = bstate * 2 ^ 14 + blight * 2 ^ 10 := by
    have hb : blight <<< 10 < 2 ^ 14 := by
      rw [Nat.shiftLeft_eq]
      norm_num at hl ⊢
      omega
    rw [or_shiftLeft_add bstate (blight <<< 10) 14 hb, Nat.shiftLeft_eq]
  have hW : (bstate <<< 14) ||| (blight <<< 10) ||| btype
      = bstate * 2 ^ 14 + blight * 2 ^ 10 + btype := by
    rw [h1]
    calc (bstate * 2 ^ 14 + blight * 2 ^ 10) ||| btype
        = ((bstate * 2 ^ 4 + blight) <<< 10) ||| btype :=
          congrArg (fun t => t ||| btype) (by rw [Nat.shiftLeft_eq]; ring)
      _ = (bstate * 2 ^ 4 + blight) * 2 ^ 10 + btype :=
          or_shiftLeft_add _ _ _ ht
      _ = bstate * 2 ^ 14 + blight * 2 ^ 10 + btype := by ring
  rw [hW]
  unfold chunks129_parse_block_word
  simp only [extractBits_div_mod]
  norm_num at ht hl hs ⊢
  unfold parse_block
  simp only [Block.mk.injEq]
  refine ⟨trivial, trivial, trivial, ?_, ?_, ?_⟩ <;> omega

/-- Witness for C3 at the spec's fixture `state=12345, light=9,
type=511`. -/
theorem chunks129_c3_witness :
    chunks129_parse_block_word 0 0 0
        ((12345 <<< 14) ||| (9 <<< 10) ||| 511) =
      parse_block 0 0 0 511 9 12345 :=
  chunks129_c3 511 9 12345 (by decide) (by decide) (by decide) 0 0 0

/-- C9: the coordinate reconstruction is injective — two block records
with indices below 32768 that decode to the same `(x, y, z)` came from
the same chunk and index, and two surface records with indices below 256
that decode to the same `(x, y)` likewise (both format versions delegate
to these same base-class methods). -/
theorem coords_injective_c9 :
    (∀ cx cy i cx' cy' i' t l s t' l' s' : Nat,
      i < 32768 → i' < 32768 →
      (parse_block i cx cy t l s).x = (parse_block i' cx' cy' t' l' s').x →
      (parse_block i cx cy t l s).y = (parse_block i' cx' cy' t' l' s').y →
      (parse_block i cx cy t l s).z = (parse_block i' cx' cy' t' l' s').z →
      cx = cx' ∧ cy = cy' ∧ i = i') ∧
    (∀ cx cy i cx' cy' i' e te hu e' te' hu' : Nat,
      i < 256 → i' < 256 →
      (parse_surface_point i cx cy e te hu).x =
        (parse_surface_point i' cx' cy' e' te' hu').x →
      (parse_surface_point i cx cy e te hu).y =
        (parse_surface_point i' cx' cy' e' te' hu').y →
      cx = cx' ∧ cy = cy' ∧ i = i') := by
  constructor
  · intro cx cy i cx' cy' i' t l s t' l' s' hi hi' hx hy hz
    simp only [parse_block, CHUNK_WIDTH, CHUNK_HEIGHT, CHUNK_DEPTH,
      Nat.div_div_eq_div_mul] at hx hy hz
    norm_num at hx hy hz
    refine ⟨?_, ?_, ?_⟩ <;> omega
  · intro cx cy i cx' cy' i' e te hu e' te' hu' hi hi' hx hy
    simp only [parse_surface_point, CHUNK_WIDTH, CHUNK_HEIGHT] at hx hy
    refine ⟨?_, ?_, ?_⟩ <;> omega

/-- Witness for C9 at two equal concrete block and surface positions. -/
theorem coords_injective_c9_witness :
    ((2 : Nat) = 2 ∧ (3 : Nat) = 3 ∧ (5000 : Nat) = 5000) ∧
    ((2 : Nat) = 2 ∧ (3 : Nat) = 3 ∧ (77 : Nat) = 77) :=
  ⟨coords_injective_c9.1 2 3 5000 2 3 5000 1 2 3 1 2 3 (by decide) (by decide)
      rfl rfl rfl,
    coords_injective_c9.2 2 3 77 2 3 77 1 2 3 1 2 3 (by decide) (by decide)
      rfl rfl⟩

/-- C5 counterexample: the claim's reading — a directory entry that is
a plain signed 32-bit value, hence 4 bytes wide, giving
`directory_size = 4 * 65537` — mispredicts `offset_from_index`: at index
0 the code returns `directory_size = 786444 = 12 * 65537`, because the
`'<8xi'` entry struct is 12 bytes (8 skipped bytes before the signed
32-bit value), not `4 * 65537 = 262148`. -/
theorem chunks129_c5_counterexample :
    Chunks129Decoder.offset_from_index 0 = 786444 ∧
    (786444 : Int) ≠ 4 * 65537 + 0 * 132112 := by
  constructor
  · rfl
  · decide

/-- C5 (amended): for the current format,
`offset_from_index(index) = directory_size + index * chunk_size` where
`directory_size = direntry_size * 65537` with a 12-byte directory entry
record (8 pad bytes followed by the signed 32-bit value), and
`chunk_size = header_size + 32768 * block_size + 256 *
surface_point_size = 16 + 32768*4 + 256*4 = 132112`. -/
theorem chunks129_c5 :
    (∀ index : Int, Chunks129Decoder.offset_from_index index =
      (directory_size Chunks129Decoder : Int) +
        index * (chunk_size Chunks129Decoder : Int)) ∧
    directory_size Chunks129Decoder =
      Chunks129Decoder.direntry_size * 65537 ∧
    Chunks129Decoder.direntry_size = 12 ∧
    chunk_size Chunks129Decoder =
      Chunks129Decoder.header_size + 32768 * Chunks129Decoder.block_size +
        256 * Chunks129Decoder.surface_point_size ∧
    Chunks129Decoder.header_size = 16 ∧
    Chunks129Decoder.block_size = 4 ∧
    Chunks129Decoder.surface_point_size = 4 ∧
    chunk_size Chunks129Decoder = 132112 := by
  refine ⟨?_, by decide, by decide, by decide, by decide, by decide,
    by decide, by decide⟩
  intro index
  show chunks129_offset_from_index index = _
  unfold chunks129_offset_from_index chunks129_directory_size
    chunks129_chunk_size directory_size chunk_size blocks_size surface_size
  norm_num [Chunks129Decoder, CHUNK_WIDTH, CHUNK_HEIGHT, CHUNK_DEPTH]

/-- C7 counterexample: the empty file provides fewer bytes than
`directory_size`, yet `read_directory` silently returns the empty offset
sequence instead of failing — `read` just returns the short buffer and
`iter_unpack` accepts any length that is a multiple of the 12-byte entry
size. -/
theorem read_directory_c7_counterexample :
    read_directory Chunks129Decoder ([] : List Nat) = Except.ok [] ∧
    (([] : List Nat)).length < directory_size Chunks129Decoder := by
  constructor
  · rfl
  · decide

/-- C7 (amended): on a file shorter than `directory_size`,
`read_directory` fails with the truncation error (`struct.error`) if and
only if the number of available bytes is not a multiple of the 12-byte
directory-entry size; when the length is a multiple, the short buffer is
accepted and a (shorter) offset sequence is produced instead. -/
theorem read_directory_c7 (f : ChunksFmt) (file : List Nat)
    (h : file.length < directory_size f) :
    read_directory f file = Except.error DecodeError.structError ↔
      file.length % f.direntry_size ≠ 0 := by
  unfold read_directory iter_unpack
  rw [List.take_of_length_le (Nat.le_of_lt h)]
  by_cases hmod : file.length % f.direntry_size = 0
  · rw [if_pos hmod]
    have harr : ∀ l : List Int,
        array_int l ≠ Except.error DecodeError.structError := by
      intro l
      unfold array_int
      split
      · simp
      · simp
    constructor
    · intro hcontra
      exact absurd hcontra (harr _)
    · intro hne
      exact absurd hmod hne
  · rw [if_neg hmod]
    simp [exceptBind, hmod]

/-- Witness for C7 on a 5-byte file (5 is not a multiple of 12, so the
read fails with the truncation error). -/
theorem read_directory_c7_witness :
    read_directory Chunks129Decoder [0, 0, 0, 0, 0] =
      Except.error DecodeError.structError :=
  (read_directory_c7 Chunks129Decoder [0, 0, 0, 0, 0] (by decide)).mpr
    (by decide)

/-- C4 counterexample: a format-B directory whose single (non-sentinel)
entry is 20000 does not yield `[offset_from_index 20000]`: that offset,
`786444 + 20000 * 132112 = 2643026444`, exceeds the signed 32-bit C
`int` range of `array('i')`, so `read_directory` raises `OverflowError`
instead of producing the offset sequence. -/
theorem read_directory_c4_counterexample :
    read_directory Chunks129Decoder (encode_direntry 20000) =
      Except.error DecodeError.overflowError ∧
    (20000 : Int) ≠ Chunks129Decoder.INVALID_INDEX_VALUE := by
  constructor
  · rfl
  · decide

/-- C4 (amended): for either format, a directory buffer's decoding
produces exactly `offset_from_index(entry)` for the entries that differ
from the format's sentinel, in table-slot order — provided each produced
offset fits the signed 32-bit `array('i')` range (otherwise
`OverflowError` is raised, see the counterexample). -/
theorem read_directory_c4 (f : ChunksFmt) (es : List Int)
    (hds : f.direntry_size = 12)
    (hlen : es.length ≤ 64 * 1024 + 1)
    (hrange : ∀ e ∈ es, -2 ^ 31 ≤ e ∧ e < 2 ^ 31)
    (hfit : ∀ e ∈ es, e ≠ f.INVALID_INDEX_VALUE →
      -2 ^ 31 ≤ f.offset_from_index e ∧ f.offset_from_index e < 2 ^ 31) :
    read_directory f ((es.map encode_direntry).flatten) =
      Except.ok ((es.filter (fun e => e ≠ f.INVALID_INDEX_VALUE)).map
        f.offset_from_index) := by
  unfold read_directory
  have hflen := encode_flatten_length es
  have htake : ((es.map encode_direntry).flatten).take (directory_size f)
      = (es.map encode_direntry).flatten := by
    apply List.take_of_length_le
    rw [hflen]
    unfold directory_size
    rw [hds]
    omega
  rw [htake]
  unfold iter_unpack
  rw [hds, hflen, if_pos (by omega)]
  have hgrp : groupN 12 ((es.map encode_direntry).flatten)
      = es.map encode_direntry := by
    apply groupN_flatten 12 (by norm_num)
    intro xs hxs
    obtain ⟨e, _, rfl⟩ := List.mem_map.mp hxs
    exact encode_direntry_length e
  show exceptBind (Except.ok (groupN 12 ((es.map encode_direntry).flatten)))
    _ = _
  rw [hgrp]
  show array_int (((es.map encode_direntry).map parse_direntry).filter _
    |>.map f.offset_from_index) = _
  rw [map_parse_encode es hrange]
  have hall : ((es.filter (fun e => e ≠ f.INVALID_INDEX_VALUE)).map
      f.offset_from_index).all
        (fun o => -2 ^ 31 ≤ o ∧ o < 2 ^ 31) = true := by
    rw [List.all_eq_true]
    intro x hx
    obtain ⟨e, hef, rfl⟩ := List.mem_map.mp hx
    obtain ⟨he, hne⟩ := List.mem_filter.mp hef
    simp only [decide_eq_true_eq] at hne ⊢
    exact hfit e he hne
  unfold array_int
  rw [if_pos hall]

/-- Witness for C4 at the spec's example directory
`[sentinel, 1000, sentinel, 2000]` for the current format (sentinel
`-1`). -/
theorem read_directory_c4_witness :
    read_directory Chunks129Decoder
        (([-1, 1000, -1, 2000].map encode_direntry).flatten) =
      Except.ok (([-1, 1000, -1, 2000].filter
        (fun e => e ≠ Chunks129Decoder.INVALID_INDEX_VALUE)).map
          Chunks129Decoder.offset_from_index) :=
  read_directory_c4 Chunks129Decoder [-1, 1000, -1, 2000] rfl
    (by norm_num) (by decide) (by decide)

/-- C6: if the chunk at some directory position has a readable header
whose 8-byte magic differs from the active format's magic, and every
earlier chunk in directory order decodes successfully, then the section
read (blocks or surface alike — the statement is generic in the parse
function, the item size and the skip/read sizes, covering
`read_blocks` and `read_surface`) emits exactly the records of the
earlier chunks and then fails with the format-mismatch error: no record
of the offending or of any later chunk is produced. -/
theorem read_section_c6 {α : Type} (f : ChunksFmt)
    (parse : Nat → Nat → Nat → List Nat → α)
    (item_size skip_size read_size : Nat) (file : List Nat)
    (pre : List Int) (offsetB : Int) (rest : List Int)
    (recss : List (List α))
    (hpre : pre.map (read_chunk f parse item_size skip_size read_size file)
      = recss.map Except.ok)
    (hoff : 0 ≤ offsetB)
    (hhdr : f.header_size ≤ (file.drop offsetB.toNat).length)
    (hmag : (unpack_header ((file.drop offsetB.toNat).take f.header_size)).1
      ≠ f.MAGIC) :
    read_section f parse item_size skip_size read_size file
        (pre ++ offsetB :: rest)
      = (recss.flatten,
          some (DecodeError.magicMismatch
            (unpack_header ((file.drop offsetB.toNat).take f.header_size)).1
            f.MAGIC)) := by
  induction pre generalizing recss with
  | nil =>
    cases recss with
    | nil =>
      have hc : read_chunk f parse item_size skip_size read_size file offsetB
          = Except.error (DecodeError.magicMismatch
              (unpack_header ((file.drop offsetB.toNat).take
                f.header_size)).1 f.MAGIC) := by
        unfold read_chunk
        rw [if_neg (by omega), if_neg (by omega), if_pos hmag]
      simpa using read_section_cons_error f parse item_size skip_size
        read_size file offsetB rest _ hc
    | cons _ _ => simp at hpre
  | cons o pre ih =>
    cases recss with
    | nil => simp at hpre
    | cons recs recss =>
      simp only [List.map_cons, List.cons.injEq] at hpre
      obtain ⟨h1, h2⟩ := hpre
      simp only [List.cons_append]
      rw [read_section_cons_ok f parse item_size skip_size read_size file o
        (pre ++ offsetB :: rest) recs h1]
      rw [ih recss h2]
      simp

/-- The enumeration of records preserves the record count. -/
lemma enumMap_length {α : Type} (g : Nat → List Nat → α) (s : Nat)
    (l : List (List Nat)) : (enumMap g s l).length = l.length := by
  induction l generalizing s with
  | nil => rfl
  | cons d ds ih => simp [enumMap, ih]

/-- The `j`-th enumerated record is the parse of the `j`-th group at
index `s + j`. -/
lemma enumMap_get {α : Type} (g : Nat → List Nat → α) (s : Nat)
    (l : List (List Nat)) (j : Nat) (h : j < l.length) :
    (enumMap g s l).get ⟨j, by rw [enumMap_length]; exact h⟩
      = g (s + j) (l.get ⟨j, h⟩) := by
  induction l generalizing s j with
  | nil => exact absurd h (by simp)
  | cons d ds ih =>
    cases j with
    | zero => simp [enumMap]
    | succ j =>
      have hj : j < ds.length := by simpa using h
      show (enumMap g (s + 1) ds).get ⟨j, _⟩ = _
      rw [ih (s + 1) j hj]
      congr 1
      omega

/-- Every member of the enumeration is the parse of some group. -/
lemma mem_enumMap {α : Type} (g : Nat → List Nat → α) (s : Nat)
    (l : List (List Nat)) (a : α) (h : a ∈ enumMap g s l) :
    ∃ j, ∃ hj : j < l.length, a = g (s + j) (l.get ⟨j, hj⟩) := by
  induction l generalizing s with
  | nil => simp [enumMap] at h
  | cons d ds ih =>
    rcases List.mem_cons.mp (show a ∈ g s d :: enumMap g (s + 1) ds from h)
        with h0 | hrest
    · refine ⟨0, by simp, ?_⟩
      simpa using h0
    · obtain ⟨j, hj, ha⟩ := ih (s + 1) hrest
      refine ⟨j + 1, by simpa using Nat.succ_lt_succ hj, ?_⟩
      rw [ha]
      congr 1
      omega

/-- The parse of any group is a member of the enumeration. -/
lemma enumMap_mem_of_get {α : Type} (g : Nat → List Nat → α) (s : Nat)
    (l : List (List Nat)) (j : Nat) (hj : j < l.length) :
    g (s + j) (l.get ⟨j, hj⟩) ∈ enumMap g s l := by
  rw [← enumMap_get g s l j hj]
  exact List.get_mem _ _ _

/-- The number of `k`-byte groups of a buffer. -/
lemma groupN_length (k : Nat) (l : List Nat) :
    (groupN k l).length = l.length / k := by
  simp [groupN]

/-- A well-formed chunk decodes successfully: the header is present with
the right magic, and the requested section is complete (`read_size`
bytes), so the chunk yields one parsed record per group. -/
lemma read_chunk_wf_ok {α : Type} (f : ChunksFmt)
    (parse : Nat → Nat → Nat → List Nat → α)
    (item_size skip_size read_size : Nat) (file : List Nat) (off : Int)
    (hwf : chunk_wf f file off)
    (hle : skip_size + read_size ≤ blocks_size f + surface_size f)
    (hmod : read_size % item_size = 0) :
    read_chunk f parse item_size skip_size read_size file off
      = Except.ok (enumMap (fun i g => parse i
          (unpack_header ((file.drop off.toNat).take f.header_size)).2.1
          (unpack_header ((file.drop off.toNat).take f.header_size)).2.2 g) 0
          (groupN item_size (((file.drop off.toNat).drop
            (f.header_size + skip_size)).take read_size)))
      ∧ (((file.drop off.toNat).drop (f.header_size + skip_size)).take
          read_size).length = read_size := by
  obtain ⟨h0, hlen, hmag⟩ := hwf
  have hbody : (((file.drop off.toNat).drop (f.header_size +
      skip_size)).take read_size).length = read_size := by
    rw [List.length_take, List.length_drop]
    unfold chunk_size at hlen
    omega
  refine ⟨?_, hbody⟩
  simp only [read_chunk]
  rw [if_neg (show ¬ off < 0 by omega)]
  rw [if_neg (show ¬ (file.drop off.toNat).length < f.header_size by
    unfold chunk_size at hlen
    omega)]
  rw [if_neg (show ¬ (unpack_header ((file.drop off.toNat).take
      f.header_size)).1 ≠ f.MAGIC from fun hne => hne hmag)]
  unfold iter_unpack
  rw [hbody, if_pos hmod]
  rfl

/-- Reading a section over a directory of well-formed chunks finishes
with no error; its output consists exactly of each directory chunk's
records. -/
lemma read_section_wf {α : Type} (f : ChunksFmt)
    (parse : Nat → Nat → Nat → List Nat → α)
    (item_size skip_size read_size : Nat) (file : List Nat)
    (hle : skip_size + read_size ≤ blocks_size f + surface_size f)
    (hmod : read_size % item_size = 0) :
    ∀ dir : List Int, (∀ off ∈ dir, chunk_wf f file off) →
      (read_section f parse item_size skip_size read_size file dir).2
        = none ∧
      (∀ a ∈ (read_section f parse item_size skip_size read_size file
          dir).1,
        ∃ off ∈ dir, ∃ recs, read_chunk f parse item_size skip_size
          read_size file off = Except.ok recs ∧ a ∈ recs) ∧
      (∀ off ∈ dir, ∀ recs, read_chunk f parse item_size skip_size
          read_size file off = Except.ok recs →
        ∀ a ∈ recs, a ∈ (read_section f parse item_size skip_size read_size
          file dir).1) := by
  intro dir
  induction dir with
  | nil =>
    intro _
    refine ⟨rfl, ?_, ?_⟩
    · intro a ha
      simp [read_section] at ha
    · intro off hoff
      simp at hoff
  | cons o dir ih =>
    intro hwf
    have hok := (read_chunk_wf_ok f parse item_size skip_size read_size file
      o (hwf o (by simp)) hle hmod).1
    have hstep := read_section_cons_ok f parse item_size skip_size read_size
      file o dir _ hok
    obtain ⟨ih1, ih2, ih3⟩ := ih (fun off hoff => hwf off (by simp [hoff]))
    refine ⟨?_, ?_, ?_⟩
    · rw [hstep]
      exact ih1
    · intro a ha
      rw [hstep] at ha
      rcases List.mem_append.mp ha with h1 | h2
      · exact ⟨o, by simp, _, hok, h1⟩
      · obtain ⟨off, hoffmem, recs, hr, har⟩ := ih2 a h2
        exact ⟨off, by simp [hoffmem], recs, hr, har⟩
    · intro off hoffmem recs hr a har
      rw [hstep]
      rcases List.mem_cons.mp hoffmem with heq | hmem
      · apply List.mem_append.mpr
        left
        subst heq
        rw [hok] at hr
        injection hr with hrecs
        rw [hrecs]
        exact har
      · exact List.mem_append.mpr (Or.inr (ih3 off hmem recs hr a har))

/-- If some pair of the association list has the key, `lookup` finds a
value. -/
lemma lookup_isSome_of_mem {β : Type} (l : List ((Nat × Nat) × β))
    (k : Nat × Nat) (h : ∃ p ∈ l, p.1 = k) :
    (l.lookup k).isSome = true := by
  induction l with
  | nil => simp at h
  | cons q l ih =>
    obtain ⟨q1, q2⟩ := q
    obtain ⟨p, hp, hpk⟩ := h
    simp only [List.lookup]
    cases hq : k == q1 with
    | true => simp
    | false =>
      rcases List.mem_cons.mp hp with heq | hmem
      · subst heq
        simp only at hpk
        rw [hpk] at hq
        simp at hq
      · exact ih ⟨p, hmem, hpk⟩

/-- Witness for C6: a 16-byte file whose single chunk header carries
magic 0 instead of the legacy format's magic; no record is emitted and
the read fails with the format mismatch. -/
theorem read_section_c6_witness :
    read_section Chunks128Decoder Chunks128Decoder.parse_block_data 2 0
        (blocks_size Chunks128Decoder)
        [0, 0, 0, 0, 0, 0, 0, 0, 0, 0, 0, 0, 0, 0, 0, 0] [(0 : Int)]
      = ([], some (DecodeError.magicMismatch 0 0xFFFFFFFFDEADBEEF)) :=
  read_section_c6 Chunks128Decoder Chunks128Decoder.parse_block_data 2 0
    (blocks_size Chunks128Decoder)
    [0, 0, 0, 0, 0, 0, 0, 0, 0, 0, 0, 0, 0, 0, 0, 0] [] 0 [] [] rfl
    (by decide) (by decide) (by decide)

/-- C10: when the surface-relative plane filter drives the block pass
and the surface pass over the same directory of the same well-formed
file (every directory offset points at a complete chunk with a valid
magic), both passes succeed, and every emitted block's column
`(b.x, b.y)` is a key of the materialised elevation mapping, so the
lookup `offsets[(b.x, b.y)]` in `main` never raises `KeyError` — the
missing-column branch is unreachable under this precondition. -/
theorem surface_c10 (f : ChunksFmt) (file : List Nat) (dir : List Int)
    (rel_offset : Int)
    (hf : f = Chunks128Decoder ∨ f = Chunks129Decoder)
    (hwf : ∀ off ∈ dir, chunk_wf f file off) :
    (read_blocks f file dir).2 = none ∧
    (read_surface f file dir).2 = none ∧
    ∀ b ∈ (read_blocks f file dir).1,
      ((surface_offsets (read_surface f file dir).1 rel_offset).lookup
        (b.x, b.y)).isSome = true := by
  have hbmod : blocks_size f % f.block_size = 0 := Nat.mul_mod_left _ _
  have hsmod : surface_size f % f.surface_point_size = 0 :=
    Nat.mul_mod_left _ _
  have hble : 0 + blocks_size f ≤ blocks_size f + surface_size f := by omega
  have hsle : blocks_size f + surface_size f ≤ blocks_size f + surface_size f :=
    Nat.le_refl _
  have hbs : blocks_size f / f.block_size = 32768 := by
    rcases hf with rfl | rfl <;> rfl
  have hss : surface_size f / f.surface_point_size = 256 := by
    rcases hf with rfl | rfl <;> rfl
  have hpb : ∀ i cx cy d, ∃ t0 l0 s0, f.parse_block_data i cx cy d
      = parse_block i cx cy t0 l0 s0 := by
    rcases hf with rfl | rfl <;> exact fun i cx cy d => ⟨_, _, _, rfl⟩
  have hps : ∀ j cx cy d, ∃ e0 t0 h0, f.parse_surface_data j cx cy d
      = parse_surface_point j cx cy e0 t0 h0 := by
    rcases hf with rfl | rfl <;> exact fun j cx cy d => ⟨_, _, _, rfl⟩
  obtain ⟨hb1, hb2, hb3⟩ := read_section_wf f f.parse_block_data f.block_size
    0 (blocks_size f) file hble hbmod dir hwf
  obtain ⟨hs1, hs2, hs3⟩ := read_section_wf f f.parse_surface_data
    f.surface_point_size (blocks_size f) (surface_size f) file hsle hsmod dir
    hwf
  refine ⟨hb1, hs1, ?_⟩
  intro b hb
  obtain ⟨off, hoffmem, recs, hok, hbrec⟩ := hb2 b hb
  have hcw := hwf off hoffmem
  obtain ⟨hokeq, hblen⟩ := read_chunk_wf_ok f f.parse_block_data f.block_size
    0 (blocks_size f) file off hcw hble hbmod
  rw [hokeq] at hok
  injection hok with hrecs
  rw [← hrecs] at hbrec
  obtain ⟨i, hi, hbi⟩ := mem_enumMap _ 0 _ b hbrec
  rw [groupN_length, hblen, hbs] at hi
  simp only [Nat.zero_add] at hbi
  obtain ⟨tb, lb, sb, hpbe⟩ := hpb i
    (unpack_header ((file.drop off.toNat).take f.header_size)).2.1
    (unpack_header ((file.drop off.toNat).take f.header_size)).2.2 _
  rw [hpbe] at hbi
  obtain ⟨hsokeq, hslen⟩ := read_chunk_wf_ok f f.parse_surface_data
    f.surface_point_size (blocks_size f) (surface_size f) file off hcw hsle
    hsmod
  have hjlen : (i / 2048) * 16 + (i / 128) % 16 <
      (groupN f.surface_point_size (((file.drop off.toNat).drop
        (f.header_size + blocks_size f)).take (surface_size f))).length := by
    rw [groupN_length, hslen, hss]
    omega
  have hpmem := enumMap_mem_of_get (fun j g => f.parse_surface_data j
    (unpack_header ((file.drop off.toNat).take f.header_size)).2.1
    (unpack_header ((file.drop off.toNat).take f.header_size)).2.2 g) 0
    _ ((i / 2048) * 16 + (i / 128) % 16) hjlen
  have hpin := hs3 off hoffmem _ hsokeq _ hpmem
  apply lookup_isSome_of_mem
  obtain ⟨eb, teb, hub, hpse⟩ := hps ((i / 2048) * 16 + (i / 128) % 16)
    (unpack_header ((file.drop off.toNat).take f.header_size)).2.1
    (unpack_header ((file.drop off.toNat).take f.header_size)).2.2
    ((groupN f.surface_point_size (((file.drop off.toNat).drop
      (f.header_size + blocks_size f)).take (surface_size f))).get
      ⟨(i / 2048) * 16 + (i / 128) % 16, hjlen⟩)
  simp only [Nat.zero_add, hpse] at hpin
  refine ⟨(((parse_surface_point ((i / 2048) * 16 + (i / 128) % 16)
      (unpack_header ((file.drop off.toNat).take f.header_size)).2.1
      (unpack_header ((file.drop off.toNat).take f.header_size)).2.2
      eb teb hub).x,
    (parse_surface_point ((i / 2048) * 16 + (i / 128) % 16)
      (unpack_header ((file.drop off.toNat).take f.header_size)).2.1
      (unpack_header ((file.drop off.toNat).take f.header_size)).2.2
      eb teb hub).y),
    ((parse_surface_point ((i / 2048) * 16 + (i / 128) % 16)
      (unpack_header ((file.drop off.toNat).take f.header_size)).2.1
      (unpack_header ((file.drop off.toNat).take f.header_size)).2.2
      eb teb hub).elevation : Int) + rel_offset), ?_, ?_⟩
  · exact List.mem_map.mpr ⟨_, hpin, rfl⟩
  · rw [hbi]
    simp only [parse_surface_point, parse_block, CHUNK_WIDTH, CHUNK_HEIGHT,
      CHUNK_DEPTH, Nat.div_div_eq_div_mul, Prod.mk.injEq]
    norm_num
    constructor <;> omega

/-- Witness for C10 at the empty file with the empty directory (the
precondition holds vacuously). -/
theorem surface_c10_witness :
    (read_blocks Chunks129Decoder [] []).2 = none ∧
    (read_surface Chunks129Decoder [] []).2 = none ∧
    ∀ b ∈ (read_blocks Chunks129Decoder [] []).1,
      ((surface_offsets (read_surface Chunks129Decoder [] []).1 0).lookup
        (b.x, b.y)).isSome = true :=
  surface_c10 Chunks129Decoder [] [] 0 (Or.inr rfl) (by simp)

end SC
